import Mathlib

/-!
Verification development for the M1Wengine game repository.

The definitions below are a shallow embedding of the Python sources:

* `src/game/scoreController.py` — the `ScoreController` singleton holding
  `_high_score` and `_boredom_meter`, with validating property setters and
  the two `*_destroyed_update_score` methods.
* `src/game/levels/level.py` — the `Level` class: `create_tile_group`,
  `create_entities_from_layout`, `add_sprites_to_camera` and `run`.

Python integers are unbounded, so they are embedded as `Int`.  A method that
can raise is embedded as a function into `Except String` (the error message
is the exception text); a statement sequence in which a later statement may
raise after an earlier mutation already happened is threaded through
`pyRun`, which keeps the partially updated state next to the pending
exception, exactly as the Python object would.
-/

namespace M1W

/-! ## ScoreController (src/game/scoreController.py)

Module-level constants, lines 2-5 of the source. -/

def SCORE_REDUCE_DAMSEL_DEATH : Int := 6

def BOREDOM_REDUCE_DAMSEL_DEATH : Int := 10

def SCORE_INCREASE_SKELETON_DEATH : Int := 1

def BOREDOM_INCREASE_SKELETON_DEATH : Int := 5

/-- The mutable state of a `ScoreController` object: the Python attributes
`_high_score` and `_boredom_meter` (both `int`).  The property getters
`high_score` / `boredom_meter` just return these fields. -/
structure ScoreController where
  high_score : Int
  boredom_meter : Int
  deriving Repr, DecidableEq

/-- Python `__init__` (lines 45-50): both meters start at 0. -/
def ScoreController.init : ScoreController := { high_score := 0, boredom_meter := 0 }

/-- The `high_score` property setter (lines 57-69): stores `new_value` when
`new_value >= 0`, otherwise raises `ValueError` and the field is untouched. -/
def ScoreController.high_score_set (s : ScoreController) (new_value : Int) :
    Except String ScoreController :=
  if new_value ≥ 0 then .ok { s with high_score := new_value }
  else .error "High score cannot be a negative value."

/-- The `boredom_meter` property setter (lines 76-88). -/
def ScoreController.boredom_meter_set (s : ScoreController) (new_value : Int) :
    Except String ScoreController :=
  if new_value ≥ 0 then .ok { s with boredom_meter := new_value }
  else .error "Boredom meter cannot be a negative value."

/-- Run one possibly-raising mutation after earlier ones: if an exception is
already pending, the statement is not executed; if the mutation raises, the
state reached so far is kept and the exception is recorded (this is exactly
how a Python exception propagates out of a method mid-way). -/
def pyRun (st : ScoreController × Option String)
    (f : ScoreController → Except String ScoreController) :
    ScoreController × Option String :=
  match st with
  | (s, some e) => (s, some e)
  | (s, none) =>
    match f s with
    | .ok s2 => (s2, none)
    | .error e => (s, some e)

/-- Method `bad_entity_destroyed_update_score` (lines 90-103): on `"Skeleton"`,
`self.high_score += SCORE_INCREASE_SKELETON_DEATH` and
`self.boredom_meter += BOREDOM_INCREASE_SKELETON_DEATH`, both going through
the validating setters; any other name is a no-op. -/
def ScoreController.bad_entity_destroyed_update_score (entity_name : String)
    (s : ScoreController) : ScoreController × Option String :=
  if entity_name = "Skeleton" then
    pyRun
      (pyRun (s, none)
        (fun s => s.high_score_set (s.high_score + SCORE_INCREASE_SKELETON_DEATH)))
      (fun s => s.boredom_meter_set (s.boredom_meter + BOREDOM_INCREASE_SKELETON_DEATH))
  else (s, none)

/-- Method `good_entity_destroyed_update_score` (lines 105-124): on `"Damsel"`, the
high score is set to 0 when `high_score - SCORE_REDUCE_DAMSEL_DEATH < 0` and
decremented otherwise, then the boredom meter likewise with
`BOREDOM_REDUCE_DAMSEL_DEATH`; all writes go through the setters. -/
def ScoreController.good_entity_destroyed_update_score (entity_name : String)
    (s : ScoreController) : ScoreController × Option String :=
  if entity_name = "Damsel" then
    pyRun
      (pyRun (s, none)
        (fun s =>
          if s.high_score - SCORE_REDUCE_DAMSEL_DEATH < 0 then s.high_score_set 0
          else s.high_score_set (s.high_score - SCORE_REDUCE_DAMSEL_DEATH)))
      (fun s =>
        if s.boredom_meter - BOREDOM_REDUCE_DAMSEL_DEATH < 0 then s.boredom_meter_set 0
        else s.boredom_meter_set (s.boredom_meter - BOREDOM_REDUCE_DAMSEL_DEATH))
  else (s, none)

/-- One external call on the score controller: a `high_score` assignment, a
`boredom_meter` assignment, or one of the two destroyed-entity updates. -/
inductive ScoreOp where
  | setHigh (v : Int)
  | setBored (v : Int)
  | badDestroyed (entity_name : String)
  | goodDestroyed (entity_name : String)
  deriving Repr, DecidableEq

/-- The state reached after one call.  A setter call that raises leaves the
object unchanged (the `ValueError` propagates to the caller); the destroyed
updates keep whatever state the object reached before a raise. -/
def scoreStep (s : ScoreController) (op : ScoreOp) : ScoreController :=
  match op with
  | .setHigh v => (pyRun (s, none) (fun s => s.high_score_set v)).1
  | .setBored v => (pyRun (s, none) (fun s => s.boredom_meter_set v)).1
  | .badDestroyed n => (ScoreController.bad_entity_destroyed_update_score n s).1
  | .goodDestroyed n => (ScoreController.good_entity_destroyed_update_score n s).1

/-- The state after a whole call sequence, starting from `__init__`. -/
def scoreRun (ops : List ScoreOp) : ScoreController :=
  ops.foldl scoreStep ScoreController.init

/-- The `high_score` setter stores a nonnegative value. -/
lemma high_score_set_ok (s : ScoreController) (v : Int) (h : 0 ≤ v) :
    s.high_score_set v = .ok { s with high_score := v } := by
  simp [ScoreController.high_score_set, h]

/-- The `high_score` setter raises on a negative value. -/
lemma high_score_set_err (s : ScoreController) (v : Int) (h : v < 0) :
    s.high_score_set v = .error "High score cannot be a negative value." := by
  simp [ScoreController.high_score_set]
  omega

/-- The `boredom_meter` setter stores a nonnegative value. -/
lemma boredom_meter_set_ok (s : ScoreController) (v : Int) (h : 0 ≤ v) :
    s.boredom_meter_set v = .ok { s with boredom_meter := v } := by
  simp [ScoreController.boredom_meter_set, h]

/-- The `boredom_meter` setter raises on a negative value. -/
lemma boredom_meter_set_err (s : ScoreController) (v : Int) (h : v < 0) :
    s.boredom_meter_set v = .error "Boredom meter cannot be a negative value." := by
  simp [ScoreController.boredom_meter_set]
  omega

/-- On `"Damsel"`, the good-entity update clamps both meters at 0 and
never raises. -/
lemma goodDestroyed_damsel (s : ScoreController) :
    ScoreController.good_entity_destroyed_update_score "Damsel" s =
      ({ high_score := max (s.high_score - SCORE_REDUCE_DAMSEL_DEATH) 0,
         boredom_meter := max (s.boredom_meter - BOREDOM_REDUCE_DAMSEL_DEATH) 0 },
        none) := by
  unfold ScoreController.good_entity_destroyed_update_score
  rw [if_pos rfl]
  simp only [pyRun, ScoreController.high_score_set, ScoreController.boredom_meter_set,
    SCORE_REDUCE_DAMSEL_DEATH, BOREDOM_REDUCE_DAMSEL_DEATH]
  split_ifs <;> try simp_all
  all_goals try (split_ifs <;> try simp_all)
  all_goals omega

/-- On `"Skeleton"`, starting from nonnegative meters the bad-entity update
adds the two increments and never raises. -/
lemma badDestroyed_skeleton (s : ScoreController)
    (hh : 0 ≤ s.high_score) (hb : 0 ≤ s.boredom_meter) :
    ScoreController.bad_entity_destroyed_update_score "Skeleton" s =
      ({ high_score := s.high_score + SCORE_INCREASE_SKELETON_DEATH,
         boredom_meter := s.boredom_meter + BOREDOM_INCREASE_SKELETON_DEATH },
        none) := by
  unfold ScoreController.bad_entity_destroyed_update_score
  rw [if_pos rfl]
  simp only [pyRun, ScoreController.high_score_set, ScoreController.boredom_meter_set,
    SCORE_INCREASE_SKELETON_DEATH, BOREDOM_INCREASE_SKELETON_DEATH]
  split_ifs <;> try simp_all
  all_goals try (split_ifs <;> try simp_all)
  all_goals omega

/-- Both meters stay nonnegative across any single call. -/
lemma scoreStep_nonneg (s : ScoreController) (op : ScoreOp)
    (hh : 0 ≤ s.high_score) (hb : 0 ≤ s.boredom_meter) :
    0 ≤ (scoreStep s op).high_score ∧ 0 ≤ (scoreStep s op).boredom_meter := by
  cases op with
  | setHigh v =>
    by_cases h : 0 ≤ v
    · simp [scoreStep, pyRun, high_score_set_ok s v h, hb, h]
    · simp [scoreStep, pyRun, high_score_set_err s v (by omega), hh, hb]
  | setBored v =>
    by_cases h : 0 ≤ v
    · simp [scoreStep, pyRun, boredom_meter_set_ok s v h, hh, h]
    · simp [scoreStep, pyRun, boredom_meter_set_err s v (by omega), hh, hb]
  | badDestroyed n =>
    by_cases h : n = "Skeleton"
    · subst h
      simp only [scoreStep, badDestroyed_skeleton s hh hb,
        SCORE_INCREASE_SKELETON_DEATH, BOREDOM_INCREASE_SKELETON_DEATH]
      constructor <;> omega
    · simp only [scoreStep, ScoreController.bad_entity_destroyed_update_score, if_neg h]
      exact ⟨hh, hb⟩
  | goodDestroyed n =>
    by_cases h : n = "Damsel"
    · subst h
      simp only [scoreStep, goodDestroyed_damsel s]
      constructor <;> simp
    · simp only [scoreStep, ScoreController.good_entity_destroyed_update_score, if_neg h]
      exact ⟨hh, hb⟩

/-- Nonnegativity of both meters is preserved by any call sequence. -/
lemma scoreFoldl_nonneg (ops : List ScoreOp) (s : ScoreController)
    (hh : 0 ≤ s.high_score) (hb : 0 ≤ s.boredom_meter) :
    0 ≤ (ops.foldl scoreStep s).high_score ∧
      0 ≤ (ops.foldl scoreStep s).boredom_meter := by
  induction ops generalizing s with
  | nil => exact ⟨hh, hb⟩
  | cons op rest ih =>
    have h := scoreStep_nonneg s op hh hb
    exact ih (scoreStep s op) h.1 h.2

/-- C1. From the initial state (both meters 0), after every sequence of
calls to the `high_score` setter, the `boredom_meter` setter,
`bad_entity_destroyed_update_score` and `good_entity_destroyed_update_score`
(with raising setter calls leaving no change), both `high_score` and
`boredom_meter` are ≥ 0. -/
theorem score_meters_always_nonneg (ops : List ScoreOp) :
    0 ≤ (scoreRun ops).high_score ∧ 0 ≤ (scoreRun ops).boredom_meter :=
  scoreFoldl_nonneg ops ScoreController.init (by simp [ScoreController.init])
    (by simp [ScoreController.init])

/-- C6. For every state, `good_entity_destroyed_update_score "Damsel"`
sets `high_score` to `max (high_score - 6) 0` and `boredom_meter` to
`max (boredom_meter - 10) 0`, never a negative value (and raises nothing);
in particular with `high_score = 3` the high score becomes 0, not -3. -/
theorem good_entity_destroyed_damsel_clamps (hs bm bm2 : Int) :
    ScoreController.good_entity_destroyed_update_score "Damsel" ⟨hs, bm⟩ =
      ({ high_score := max (hs - 6) 0, boredom_meter := max (bm - 10) 0 }, none) ∧
    (ScoreController.good_entity_destroyed_update_score "Damsel" ⟨3, bm2⟩).1.high_score
      = 0 := by
  constructor
  · simpa [SCORE_REDUCE_DAMSEL_DEATH, BOREDOM_REDUCE_DAMSEL_DEATH] using
      goodDestroyed_damsel ⟨hs, bm⟩
  · rw [goodDestroyed_damsel ⟨3, bm2⟩]
    simp [SCORE_REDUCE_DAMSEL_DEATH]

/-- C7. Assigning a negative value to `high_score` or `boredom_meter`
raises `ValueError` and leaves the stored value unchanged; assigning a
nonnegative value succeeds and stores it. -/
theorem setters_reject_negative_store_nonneg (s : ScoreController) (v w : Int)
    (hv : v < 0) (hw : 0 ≤ w) :
    s.high_score_set v = .error "High score cannot be a negative value." ∧
    scoreStep s (.setHigh v) = s ∧
    s.high_score_set w = .ok { s with high_score := w } ∧
    s.boredom_meter_set v = .error "Boredom meter cannot be a negative value." ∧
    scoreStep s (.setBored v) = s ∧
    s.boredom_meter_set w = .ok { s with boredom_meter := w } := by
  refine ⟨high_score_set_err s v hv, ?_, high_score_set_ok s w hw,
    boredom_meter_set_err s v hv, ?_, boredom_meter_set_ok s w hw⟩ <;>
    simp [scoreStep, pyRun, high_score_set_err s v hv, boredom_meter_set_err s v hv]

/-- Closed-form check of `setters_reject_negative_store_nonneg` at
`s = ⟨2, 5⟩`, `v = -1`, `w = 7`. -/
theorem setters_reject_negative_store_nonneg_witness :
    ScoreController.high_score_set ⟨2, 5⟩ (-1)
        = .error "High score cannot be a negative value." ∧
    scoreStep ⟨2, 5⟩ (.setHigh (-1)) = ⟨2, 5⟩ ∧
    ScoreController.high_score_set ⟨2, 5⟩ 7 = .ok ⟨7, 5⟩ ∧
    ScoreController.boredom_meter_set ⟨2, 5⟩ (-1)
        = .error "Boredom meter cannot be a negative value." ∧
    scoreStep ⟨2, 5⟩ (.setBored (-1)) = ⟨2, 5⟩ ∧
    ScoreController.boredom_meter_set ⟨2, 5⟩ 7 = .ok ⟨2, 7⟩ :=
  setters_reject_negative_store_nonneg ⟨2, 5⟩ (-1) 7 (by decide) (by decide)

/-! ### The singleton protocol (`__new__` / `__init__`, lines 36-50)

`ScoreController()` in Python first runs `__new__`, which returns the class
attribute `instance` when it exists and otherwise stores a freshly allocated
object there, and then always runs `__init__` on the returned object,
resetting both meters to 0.  Object identity is embedded through a heap
mapping object ids (`Nat`) to `ScoreController` field records; the class
attribute `instance` is an `Option Nat`. -/

/-- Python `__new__` (lines 36-43): returns `(id of the object returned, new value
of the class attribute)`; `fresh` is the id a new allocation would get. -/
def ScoreController.new (instSlot : Option Nat) (fresh : Nat) : Nat × Option Nat :=
  match instSlot with
  | some i => (i, some i)
  | none => (fresh, some fresh)

/-- Python `__init__` (lines 45-50) on object `i`: reset its fields in the heap. -/
def ScoreController.init_obj (heap : Nat → ScoreController) (i : Nat) :
    Nat → ScoreController :=
  fun j => if j = i then ScoreController.init else heap j

/-- One evaluation of the expression `ScoreController()`: `__new__` then
`__init__` on the object it returned.  Result: (updated heap, updated class
attribute, id of the returned object, next fresh id). -/
def ScoreController.construct (heap : Nat → ScoreController) (instSlot : Option Nat)
    (fresh : Nat) : (Nat → ScoreController) × Option Nat × Nat × Nat :=
  let n := ScoreController.new instSlot fresh
  (ScoreController.init_obj heap n.1, n.2, n.1, fresh + 1)

/-- C10. After a first `ScoreController()` (empty instance slot) and any
mutation of the singleton's meters to `acc`, a second `ScoreController()`
returns the identical object, yet runs `__init__` again: both meters are
back to 0, so the accumulated score is erased. -/
theorem second_construction_resets_singleton (heap : Nat → ScoreController)
    (acc : ScoreController) (fresh : Nat) :
    (ScoreController.construct heap none fresh).2.2.1 = fresh ∧
    ((ScoreController.construct
        (fun j => if j = fresh then acc
          else (ScoreController.construct heap none fresh).1 j)
        (ScoreController.construct heap none fresh).2.1
        (ScoreController.construct heap none fresh).2.2.2).2.2.1 = fresh ∧
      (ScoreController.construct
        (fun j => if j = fresh then acc
          else (ScoreController.construct heap none fresh).1 j)
        (ScoreController.construct heap none fresh).2.1
        (ScoreController.construct heap none fresh).2.2.2).1 fresh
        = { high_score := 0, boredom_meter := 0 }) := by
  simp [ScoreController.construct, ScoreController.new, ScoreController.init_obj,
    ScoreController.init]

/-! ## Level.run and the pause flag (src/game/levels/level.py, lines 209-236)

`run` fills the surface, walks the pygame event queue, and — depending on
`self._paused` — either calls `pauseMenu` or updates and draws the sprite
groups.  The pygame constants are external numeric codes; only their
(in)equality matters here. -/

/-- Constant `pygame.KEYUP` (external; pygame defines it as 769). -/
def KEYUP : Nat := 769

/-- Constant `pygame.K_ESCAPE` (external; pygame defines it as 27). -/
def K_ESCAPE : Nat := 27

/-- A pygame event as `run` inspects it: its `type` and `key` fields. -/
structure PGEvent where
  type : Nat
  key : Nat
  deriving Repr, DecidableEq

/-- The event loop of `run` (lines 219-222) applied to the `_paused` flag.
For an escape key-up the source executes the bare expression statement
`self._paused is not self._paused` (line 222): the comparison is evaluated
and its result discarded — no assignment happens, so the flag is returned
unchanged on every path. -/
def pauseCheck (paused : Bool) (events : List PGEvent) : Bool :=
  events.foldl
    (fun p e =>
      if e.type = KEYUP then
        if e.key = K_ESCAPE then
          p
        else p
      else p)
    paused

/-- The sprite groups a `Level` owns (`create_sprite_groups`, `create_map`). -/
inductive GroupName where
  | player
  | bad
  | good
  | terrain
  | plants
  | fence
  | extra
  deriving Repr, DecidableEq

/-- One observable action `run` performs on a frame, in program order. -/
inductive RunAction where
  /-- Action `self._display_surface.fill("black")` -/
  | fill
  /-- Action `g.update(arg1, arg2)` on sprite group `g` -/
  | update (g arg1 arg2 : GroupName)
  /-- Action `self._camera.camera_update()` -/
  | cameraUpdate
  /-- Action `self._camera.draw(self._display_surface)` -/
  | cameraDraw
  /-- Action `g.draw(self._display_surface)` on sprite group `g` -/
  | draw (g : GroupName)
  /-- Action `self.pauseMenu()` -/
  | pauseMenu
  deriving Repr, DecidableEq

/-- The groups registered with the camera by `add_sprites_to_camera`
(lines 187-195), in registration order; `_player_group` is never added, so
`camera.draw` renders only non-player layers. -/
def cameraGroups : List GroupName :=
  [.terrain, .plants, .fence, .extra, .good, .bad]

/-- Method `Level.run` (lines 214-236): returns the `_paused` flag after the frame
and the ordered list of observable actions performed. -/
def Level.run (paused : Bool) (events : List PGEvent) : Bool × List RunAction :=
  let paused2 := pauseCheck paused events
  if paused2 then
    (paused2, [.fill, .pauseMenu])
  else
    (paused2,
      [.fill,
       .update .player .bad .good,
       .update .bad .bad .good,
       .update .good .bad .good,
       .cameraUpdate,
       .cameraDraw,
       .draw .player])

/-- The event loop never changes the `_paused` flag: line 222 is a discarded
comparison, not an assignment. -/
lemma pauseCheck_id (paused : Bool) (events : List PGEvent) :
    pauseCheck paused events = paused := by
  induction events generalizing paused with
  | nil => rfl
  | cons e rest ih =>
    simp only [pauseCheck, List.foldl_cons] at *
    split_ifs <;> exact ih paused

/-- C2 counterevidence. Processing a single escape key-up event in
`Level.run` does not flip the flag: from Running (`_paused = false`) the
level stays Running, contrary to the claimed Running→Paused toggle (and from
Paused it stays Paused). -/
theorem run_escape_keyup_is_noop :
    (Level.run false [{ type := KEYUP, key := K_ESCAPE }]).1 = false ∧
    (Level.run true [{ type := KEYUP, key := K_ESCAPE }]).1 = true := by
  constructor <;> rfl

/-- C9. On a frame where the controller is Running (`_paused = false`,
which the no-op event loop cannot change), `run` performs in order: clear
the surface; update the player group, then the bad group, then the good
group, each receiving the bad and good groups as arguments; recompute the
camera offset; camera-draw the registered layers (which exclude the player
group); draw the player group last. -/
theorem run_running_frame_order (events : List PGEvent) :
    Level.run false events =
      (false,
        [.fill,
         .update .player .bad .good,
         .update .bad .bad .good,
         .update .good .bad .good,
         .cameraUpdate,
         .cameraDraw,
         .draw .player]) ∧
    GroupName.player ∉ cameraGroups := by
  constructor
  · simp [Level.run, pauseCheck_id]
  · simp [cameraGroups]

/-! ## Level.create_tile_group (src/game/levels/level.py, lines 161-181)

A layout is the value `import_csv_layout` returns.  That helper
(`file_managers/support.py`) is not among the given sources; modelled from
the spec (§4.1, §6): an ordered 2D grid of integers read from a
comma-separated resource, with `-1` denoting an empty cell.  The cells are
the CSV numerals, so the source's sentinel test `val != "-1"` holds exactly
when the cell's integer value is not `-1`, and `int(val)` is that value;
both are embedded on the integer value directly.  `TILESIZE` lives in the
missing `settings.py` and stays a parameter. -/

/-- A tile as `create_tile_group` builds one: `set_tile(coords, surface)`
binds a pixel position and an image borrowed from `_universal_assets`
(the `set_colorkey` call only tweaks the image in place). -/
structure Tile (α : Type) where
  coords : Int × Int
  image : α
  deriving Repr, DecidableEq

/-- Python list subscription `l[i]`: nonnegative indices from the front,
negative indices from the back, `IndexError` (`none`) out of range. -/
def pyIndex {α : Type} (l : List α) (i : Int) : Option α :=
  if 0 ≤ i then l[i.toNat]?
  else if 0 ≤ i + l.length then l[(i + l.length).toNat]?
  else none

/-- The inner loop of `create_tile_group` over one row: `col_index` is the
`enumerate` counter, `row_index` the row's.  For a non-sentinel cell the
coords are `(col_index * TILESIZE, row_index * TILESIZE)`, the image is
`self._universal_assets[int(val)]`, and the built tile joins the group; a
bad asset index raises (`none`). -/
def tileRow {α : Type} (TS : Int) (assets : List α) (row_index : Nat) :
    Nat → List Int → Option (List (Tile α))
  | _, [] => some []
  | col_index, val :: rest =>
    if val ≠ -1 then
      match pyIndex assets val with
      | some tile_surface =>
        (tileRow TS assets row_index (col_index + 1) rest).map
          (fun ts =>
            { coords := ((col_index : Int) * TS, (row_index : Int) * TS),
              image := tile_surface } :: ts)
      | none => none
    else tileRow TS assets row_index (col_index + 1) rest

/-- The outer loop of `create_tile_group` over the rows. -/
def tileRows {α : Type} (TS : Int) (assets : List α) :
    Nat → List (List Int) → Option (List (Tile α))
  | _, [] => some []
  | row_index, row :: rest => do
    let ts ← tileRow TS assets row_index 0 row
    let rs ← tileRows TS assets (row_index + 1) rest
    return ts ++ rs

/-- Method `Level.create_tile_group` (lines 161-181): the group of tiles built for
a layout, `none` when a cell's asset index raises. -/
def Level.create_tile_group {α : Type} (TS : Int) (assets : List α)
    (layout : List (List Int)) : Option (List (Tile α)) :=
  tileRows TS assets 0 layout

/-- Spec-side description of the tile group builder (§4.2 of the spec): for
each non-empty cell, pixel position `(col × tileSize, row × tileSize)`, the
asset at the cell's integer value, one tile. -/
def tileGroupSpec {α : Type} (TS : Int) (assets : List α)
    (layout : List (List Int)) : List (Tile α) :=
  ((layout.enumFrom 0).map (fun r =>
    (r.2.enumFrom 0).filterMap (fun c =>
      if c.2 = -1 then none
      else (pyIndex assets c.2).map
        (fun img => { coords := ((c.1 : Int) * TS, (r.1 : Int) * TS), image := img })))).flatten

/-- A cell is the sentinel or an in-range asset index. -/
def validCell (numAssets : Nat) (v : Int) : Prop :=
  v = -1 ∨ (0 ≤ v ∧ v < numAssets)

/-- Every cell of the layout is valid for the given asset table size. -/
def validLayout (numAssets : Nat) (layout : List (List Int)) : Prop :=
  ∀ row ∈ layout, ∀ v ∈ row, validCell numAssets v

/-- The number of non-sentinel cells of a layout. -/
def countNonSentinel (layout : List (List Int)) : Nat :=
  (layout.map (fun row => row.countP (fun v => v != -1))).sum

/-- An in-range cell subscripts the asset table successfully. -/
lemma pyIndex_of_valid {α : Type} (assets : List α) (v : Int)
    (h0 : 0 ≤ v) (h1 : v < assets.length) :
    ∃ a, pyIndex assets v = some a := by
  have hlt : v.toNat < assets.length := by omega
  exact ⟨assets.get ⟨v.toNat, hlt⟩, by
    simp [pyIndex, h0, List.getElem?_eq_getElem hlt]⟩

/-- On a row of valid cells the inner loop succeeds and produces exactly the
per-cell comprehension, whatever the column offset. -/
lemma tileRow_eq_spec {α : Type} (TS : Int) (assets : List α) (ri : Nat)
    (row : List Int) (hval : ∀ v ∈ row, validCell assets.length v) :
    ∀ ci, tileRow TS assets ri ci row =
      some ((row.enumFrom ci).filterMap (fun c =>
        if c.2 = -1 then none
        else (pyIndex assets c.2).map
          (fun img =>
            { coords := ((c.1 : Int) * TS, (ri : Int) * TS), image := img }))) := by
  induction row with
  | nil => intro ci; rfl
  | cons v rest ih =>
    intro ci
    have hrec := ih (fun w hw => hval w (by simp [hw])) (ci + 1)
    by_cases h : v = -1
    · subst h
      simp [tileRow, hrec, List.enumFrom_cons]
    · rcases hval v (by simp) with h' | ⟨h0, h1⟩
      · exact absurd h' h
      · obtain ⟨a, ha⟩ := pyIndex_of_valid assets v h0 h1
        simp [tileRow, h, ha, hrec, List.enumFrom_cons]

/-- On a valid layout the outer loop succeeds and produces the joined
comprehension, whatever the row offset. -/
lemma tileRows_eq_spec {α : Type} (TS : Int) (assets : List α)
    (layout : List (List Int)) (hval : validLayout assets.length layout) :
    ∀ ri, tileRows TS assets ri layout =
      some (((layout.enumFrom ri).map (fun r =>
        (r.2.enumFrom 0).filterMap (fun c =>
          if c.2 = -1 then none
          else (pyIndex assets c.2).map
            (fun img =>
              { coords := ((c.1 : Int) * TS, (r.1 : Int) * TS),
                image := img })))).flatten) := by
  induction layout with
  | nil => intro ri; rfl
  | cons row rest ih =>
    intro ri
    have hrow := tileRow_eq_spec TS assets ri row
      (fun v hv => hval row (by simp) v hv) 0
    have hrec := ih (fun r hr v hv => hval r (by simp [hr]) v hv) (ri + 1)
    simp [tileRows, hrow, hrec, List.enumFrom_cons]

/-- C5. On every valid tile-layer layout `create_tile_group` builds
exactly one tile per non-sentinel cell at row `r`, column `c`, at pixel
position `(c * TILESIZE, r * TILESIZE)`, bound to the asset at the cell's
integer value (the per-cell comprehension `tileGroupSpec`); in particular
layout `[[-1,0],[3,-1]]` with tile size 10 yields one member at `(10,0)`
with the asset at index 0 and one at `(0,10)` with the asset at index 3. -/
theorem create_tile_group_refines_spec {α : Type} (TS : Int) (assets : List α)
    (layout : List (List Int)) (hval : validLayout assets.length layout)
    (a0 a1 a2 a3 : α) :
    Level.create_tile_group TS assets layout = some (tileGroupSpec TS assets layout) ∧
    Level.create_tile_group 10 [a0, a1, a2, a3] [[-1, 0], [3, -1]] =
      some [{ coords := (10, 0), image := a0 }, { coords := (0, 10), image := a3 }] := by
  constructor
  · exact tileRows_eq_spec TS assets layout hval 0
  · rfl

/-- Closed-form check of `create_tile_group_refines_spec` on the
`[[-1,0],[3,-1]]` scenario with four numbered assets. -/
theorem create_tile_group_refines_spec_witness :
    Level.create_tile_group 10 ([0, 1, 2, 3] : List Nat) [[-1, 0], [3, -1]] =
      some (tileGroupSpec 10 [0, 1, 2, 3] [[-1, 0], [3, -1]]) ∧
    Level.create_tile_group 10 ([0, 1, 2, 3] : List Nat) [[-1, 0], [3, -1]] =
      some [{ coords := (10, 0), image := 0 }, { coords := (0, 10), image := 3 }] :=
  create_tile_group_refines_spec 10 [0, 1, 2, 3] [[-1, 0], [3, -1]]
    (by unfold validLayout validCell; decide) 0 1 2 3

/-- On a row of valid cells the inner loop builds one tile per non-sentinel
cell. -/
lemma tileRow_length {α : Type} (TS : Int) (assets : List α) (ri : Nat)
    (row : List Int) (hval : ∀ v ∈ row, validCell assets.length v) :
    ∀ ci, ∃ ts, tileRow TS assets ri ci row = some ts ∧
      ts.length = row.countP (fun v => v != -1) := by
  induction row with
  | nil => intro ci; exact ⟨[], rfl, by simp⟩
  | cons v rest ih =>
    intro ci
    obtain ⟨ts, hts, hlen⟩ := ih (fun w hw => hval w (by simp [hw])) (ci + 1)
    by_cases h : v = -1
    · subst h
      refine ⟨ts, ?_, ?_⟩
      · simp [tileRow, hts]
      · simp [hlen, List.countP_cons]
    · rcases hval v (by simp) with h' | ⟨h0, h1⟩
      · exact absurd h' h
      · obtain ⟨a, ha⟩ := pyIndex_of_valid assets v h0 h1
        refine ⟨{ coords := ((ci : Int) * TS, (ri : Int) * TS), image := a } :: ts,
          ?_, ?_⟩
        · simp [tileRow, h, ha, hts]
        · simp [List.countP_cons, h, hlen]

/-- On a valid layout the outer loop builds one tile per non-sentinel cell. -/
lemma tileRows_length {α : Type} (TS : Int) (assets : List α)
    (layout : List (List Int)) (hval : validLayout assets.length layout) :
    ∀ ri, ∃ g, tileRows TS assets ri layout = some g ∧
      g.length = countNonSentinel layout := by
  induction layout with
  | nil => intro ri; exact ⟨[], rfl, by simp [countNonSentinel]⟩
  | cons row rest ih =>
    intro ri
    obtain ⟨ts, hts, htlen⟩ := tileRow_length TS assets ri row
      (fun v hv => hval row (by simp) v hv) 0
    obtain ⟨g, hg, hglen⟩ := ih (fun r hr v hv => hval r (by simp [hr]) v hv) (ri + 1)
    refine ⟨ts ++ g, ?_, ?_⟩
    · simp [tileRows, hts, hg]
    · simp [countNonSentinel, htlen, hglen, List.map_cons]

/-- C3. On every valid tile-layer layout (each cell the sentinel or an
in-range asset index), the group `create_tile_group` returns has exactly as
many members as the layout has non-sentinel cells. -/
theorem create_tile_group_count {α : Type} (TS : Int) (assets : List α)
    (layout : List (List Int)) (hval : validLayout assets.length layout) :
    ∃ g, Level.create_tile_group TS assets layout = some g ∧
      g.length = countNonSentinel layout :=
  tileRows_length TS assets layout hval 0

/-- Closed-form check of `create_tile_group_count` on the two-by-two layout
with two non-sentinel cells. -/
theorem create_tile_group_count_witness :
    ∃ g, Level.create_tile_group 10 ([0, 1, 2, 3] : List Nat) [[-1, 0], [3, -1]]
        = some g ∧ g.length = countNonSentinel [[-1, 0], [3, -1]] :=
  create_tile_group_count 10 [0, 1, 2, 3] [[-1, 0], [3, -1]]
    (by unfold validLayout validCell; decide)

/-! ## Level.create_entities_from_layout (src/game/levels/level.py,
lines 121-159)

`character_keys` lives in the missing `game_data.py`; modelled from the
spec (§4.3, §6): a mapping from integer key to entity kind
{player, damsel, skeleton}.  The entity classes themselves
(`tiles/entities/...`) are also not among the given sources; modelled from
the spec: an entity records its spawn position, and `set_player` installs a
non-owning back-reference to the player (§4.3 post-pass). -/

/-- The `character_keys` table: integer key per entity kind. -/
structure CharacterKeys where
  player : Int
  damsel : Int
  skeleton : Int
  deriving Repr, DecidableEq

/-- Modelled from the spec: the spawned `Player` entity, identified by its
spawn position. -/
structure PlayerE where
  position : Int × Int
  deriving Repr, DecidableEq

/-- The two NPC variants. -/
inductive NPCKind where
  | damsel
  | skeleton
  deriving Repr, DecidableEq

/-- Modelled from the spec: a faction-group member (`Damsel` or `Skeleton`)
with its spawn position and its player back-reference (absent until the
post-pass calls `set_player`). -/
structure NPC where
  kind : NPCKind
  position : Int × Int
  playerRef : Option PlayerE
  deriving Repr, DecidableEq

/-- Modelled from the spec: `set_player` installs the non-owning player
awareness link on a faction-group member. -/
def NPC.set_player (e : NPC) (p : PlayerE) : NPC := { e with playerRef := some p }

/-- The loop state of `create_entities_from_layout`: the running `position`
variable, the `_player_group` singleton, and the good/bad faction groups in
insertion order. -/
structure SpawnAcc where
  position : Int × Int
  player : Option PlayerE
  good : List NPC
  bad : List NPC
  deriving Repr, DecidableEq

/-- The body of the inner loop for one cell (lines 134-151): a non-sentinel
cell updates `position` to `(col_index * TILESIZE, row_index * TILESIZE)`;
then the `if`/`elif` chain spawns a `Player` (replacing the `GroupSingle`
member), a `Damsel` into the good group, or a `Skeleton` into the bad
group. -/
def entCell (keys : CharacterKeys) (TS : Int) (row_index col_index : Nat)
    (val : Int) (st : SpawnAcc) : SpawnAcc :=
  let st1 :=
    if val ≠ -1 then
      { st with position := ((col_index : Int) * TS, (row_index : Int) * TS) }
    else st
  if val = keys.player then
    { st1 with player := some { position := st1.position } }
  else if val = keys.damsel then
    { st1 with good := st1.good ++
      [{ kind := .damsel, position := st1.position, playerRef := none }] }
  else if val = keys.skeleton then
    { st1 with bad := st1.bad ++
      [{ kind := .skeleton, position := st1.position, playerRef := none }] }
  else st1

/-- The inner loop over one row (line 133). -/
def entsRow (keys : CharacterKeys) (TS : Int) (row_index : Nat) :
    Nat → List Int → SpawnAcc → SpawnAcc
  | _, [], st => st
  | col_index, val :: rest, st =>
    entsRow keys TS row_index (col_index + 1) rest
      (entCell keys TS row_index col_index val st)

/-- The outer loop over the rows (line 132). -/
def entsRows (keys : CharacterKeys) (TS : Int) :
    Nat → List (List Int) → SpawnAcc → SpawnAcc
  | _, [], st => st
  | row_index, row :: rest, st =>
    entsRows keys TS (row_index + 1) rest (entsRow keys TS row_index 0 row st)

/-- Loop state on entry (lines 128-131): position `(0, 0)`, no player, empty
groups. -/
def spawnInit : SpawnAcc := { position := (0, 0), player := none, good := [], bad := [] }

/-- Method `Level.create_entities_from_layout` (lines 121-159): run the spawning
loops, then give every good and bad member the player back-reference via
`set_player(self.player)`.  When no player was spawned but a faction group
is non-empty, reading `self.player` raises `AttributeError` (`none`). -/
def Level.create_entities_from_layout (keys : CharacterKeys) (TS : Int)
    (layout : List (List Int)) : Option SpawnAcc :=
  let st := entsRows keys TS 0 layout spawnInit
  match st.player with
  | some p =>
    some { st with
      good := st.good.map (fun e => e.set_player p),
      bad := st.bad.map (fun e => e.set_player p) }
  | none => if st.good.isEmpty && st.bad.isEmpty then some st else none

/-- The number of cells of the layout holding key `k`. -/
def countKey (k : Int) (layout : List (List Int)) : Nat :=
  (layout.map (fun row => row.countP (fun v => v == k))).sum

/-- A layout with a positive key count has a row containing the key. -/
lemma countKey_pos (k : Int) (layout : List (List Int))
    (h : 0 < countKey k layout) : ∃ row ∈ layout, k ∈ row := by
  induction layout with
  | nil => simp [countKey] at h
  | cons row rest ih =>
    rw [countKey, List.map_cons, List.sum_cons] at h
    by_cases hr : 0 < row.countP (fun v => v == k)
    · obtain ⟨v, hv, hvk⟩ := List.countP_pos_iff.mp hr
      exact ⟨row, by simp, by simpa using (beq_iff_eq.mp hvk ▸ hv)⟩
    · have : 0 < countKey k rest := by unfold countKey; omega
      obtain ⟨row', hr', hk⟩ := ih this
      exact ⟨row', by simp [hr'], hk⟩

/-- One cell never clears the player singleton. -/
lemma entCell_player_mono (keys : CharacterKeys) (TS : Int) (ri ci : Nat)
    (v : Int) (st : SpawnAcc) (h : st.player.isSome) :
    ((entCell keys TS ri ci v st).player).isSome := by
  simp only [entCell]
  split_ifs <;> simp_all

/-- A player-key cell leaves the loop state with a spawned player. -/
lemma entCell_player_of_key (keys : CharacterKeys) (TS : Int) (ri ci : Nat)
    (st : SpawnAcc) :
    ((entCell keys TS ri ci keys.player st).player).isSome := by
  simp only [entCell]
  split_ifs <;> simp_all

/-- The inner loop never clears the player singleton. -/
lemma entsRow_player_mono (keys : CharacterKeys) (TS : Int) (ri : Nat) :
    ∀ (row : List Int) (ci : Nat) (st : SpawnAcc), st.player.isSome →
      ((entsRow keys TS ri ci row st).player).isSome := by
  intro row
  induction row with
  | nil => intro ci st h; exact h
  | cons v rest ih =>
    intro ci st h
    simp only [entsRow]
    exact ih _ _ (entCell_player_mono keys TS ri ci v st h)

/-- A row containing the player key leaves the loop with a spawned player. -/
lemma entsRow_player_of_mem (keys : CharacterKeys) (TS : Int) (ri : Nat) :
    ∀ (row : List Int) (ci : Nat) (st : SpawnAcc), keys.player ∈ row →
      ((entsRow keys TS ri ci row st).player).isSome := by
  intro row
  induction row with
  | nil => intro ci st h; simp at h
  | cons v rest ih =>
    intro ci st h
    by_cases hv : v = keys.player
    · subst hv
      simp only [entsRow]
      exact entsRow_player_mono keys TS ri rest _ _
        (entCell_player_of_key keys TS ri ci st)
    · have : keys.player ∈ rest := by
        rcases List.mem_cons.mp h with h' | h'
        · exact absurd h'.symm hv
        · exact h'
      simp only [entsRow]
      exact ih _ _ this

/-- The outer loop never clears the player singleton. -/
lemma entsRows_player_mono (keys : CharacterKeys) (TS : Int) :
    ∀ (layout : List (List Int)) (ri : Nat) (st : SpawnAcc), st.player.isSome →
      ((entsRows keys TS ri layout st).player).isSome := by
  intro layout
  induction layout with
  | nil => intro ri st h; exact h
  | cons row rest ih =>
    intro ri st h
    exact ih _ _ (entsRow_player_mono keys TS ri row 0 st h)

/-- A layout containing the player key somewhere leaves the loops with a
spawned player. -/
lemma entsRows_player_of_mem (keys : CharacterKeys) (TS : Int) :
    ∀ (layout : List (List Int)) (ri : Nat) (st : SpawnAcc),
      (∃ row ∈ layout, keys.player ∈ row) →
      ((entsRows keys TS ri layout st).player).isSome := by
  intro layout
  induction layout with
  | nil => intro ri st h; simp at h
  | cons row rest ih =>
    intro ri st ⟨row', hrow', hmem⟩
    rcases List.mem_cons.mp hrow' with h' | h'
    · subst h'
      exact entsRows_player_mono keys TS rest _ _
        (entsRow_player_of_mem keys TS ri row' 0 st hmem)
    · exact ih _ _ ⟨row', h', hmem⟩

/-- C8. For every character layout containing exactly one player key,
`create_entities_from_layout` succeeds, a player is spawned, and after the
post-pass every member of the good group and of the bad group carries the
spawned player as its non-null back-reference. -/
theorem faction_members_get_player_backref (keys : CharacterKeys) (TS : Int)
    (layout : List (List Int)) (hone : countKey keys.player layout = 1) :
    ∃ st p, Level.create_entities_from_layout keys TS layout = some st ∧
      st.player = some p ∧
      (∀ e ∈ st.good, e.playerRef = some p) ∧
      (∀ e ∈ st.bad, e.playerRef = some p) := by
  have hmem : ∃ row ∈ layout, keys.player ∈ row :=
    countKey_pos keys.player layout (by omega)
  have hsome := entsRows_player_of_mem keys TS layout 0 spawnInit hmem
  obtain ⟨p, hp⟩ := Option.isSome_iff_exists.mp hsome
  have hgoal : Level.create_entities_from_layout keys TS layout =
      some { entsRows keys TS 0 layout spawnInit with
        good := (entsRows keys TS 0 layout spawnInit).good.map
          (fun e => e.set_player p),
        bad := (entsRows keys TS 0 layout spawnInit).bad.map
          (fun e => e.set_player p) } := by
    simp only [Level.create_entities_from_layout, hp]
  refine ⟨_, p, hgoal, by simpa using hp, ?_, ?_⟩
  · intro e he
    simp only at he
    obtain ⟨e', _, he'⟩ := List.mem_map.mp he
    simp [← he', NPC.set_player]
  · intro e he
    simp only at he
    obtain ⟨e', _, he'⟩ := List.mem_map.mp he
    simp [← he', NPC.set_player]

/-- Closed-form check of `faction_members_get_player_backref` on a layout
with one player cell, one damsel cell and one skeleton cell. -/
theorem faction_members_get_player_backref_witness :
    ∃ st p,
      Level.create_entities_from_layout
          { player := 1, damsel := 2, skeleton := 3 } 10 [[2, -1, 1], [3, -1, 2]]
        = some st ∧
      st.player = some p ∧
      (∀ e ∈ st.good, e.playerRef = some p) ∧
      (∀ e ∈ st.bad, e.playerRef = some p) :=
  faction_members_get_player_backref { player := 1, damsel := 2, skeleton := 3 } 10
    [[2, -1, 1], [3, -1, 2]] (by unfold countKey; decide)

/-! ## C4: sentinel cells are never materialized -/

/-- The cell of a layout at row `r`, column `c`, when it exists. -/
def cellAt (layout : List (List Int)) (r c : Nat) : Option Int :=
  layout[r]?.bind (fun row => row[c]?)

/-- Every tile the inner loop builds comes from a non-sentinel cell of the
row and sits at that cell's pixel position. -/
lemma tileRow_mem {α : Type} (TS : Int) (assets : List α) (ri : Nat) :
    ∀ (row : List Int) (ci : Nat) (ts : List (Tile α)),
      tileRow TS assets ri ci row = some ts → ∀ t ∈ ts,
      ∃ j v, row[j]? = some v ∧ v ≠ -1 ∧
        t.coords = (((ci + j : Nat) : Int) * TS, (ri : Int) * TS) := by
  intro row
  induction row with
  | nil =>
    intro ci ts hts t ht
    simp only [tileRow, Option.some.injEq] at hts
    subst hts
    simp at ht
  | cons v rest ih =>
    intro ci ts hts t ht
    by_cases h : v = -1
    · subst h
      simp only [tileRow, ne_eq, not_true_eq_false, if_false, reduceIte] at hts
      obtain ⟨j, w, hw, hw1, hw2⟩ := ih (ci + 1) ts hts t ht
      refine ⟨j + 1, w, by simpa using hw, hw1, ?_⟩
      have : ci + (j + 1) = (ci + 1) + j := by omega
      rw [this]
      exact hw2
    · rw [tileRow, if_pos h] at hts
      cases hpy : pyIndex assets v with
      | none => rw [hpy] at hts; simp at hts
      | some a =>
        rw [hpy] at hts
        obtain ⟨ts', hts', heq⟩ := Option.map_eq_some'.mp hts
        subst heq
        rcases List.mem_cons.mp ht with ht' | ht'
        · subst ht'
          exact ⟨0, v, by simp, h, by simp⟩
        · obtain ⟨j, w, hw, hw1, hw2⟩ := ih (ci + 1) ts' hts' t ht'
          refine ⟨j + 1, w, by simpa using hw, hw1, ?_⟩
          have : ci + (j + 1) = (ci + 1) + j := by omega
          rw [this]
          exact hw2

/-- Every tile the outer loop builds comes from a non-sentinel cell of the
layout and sits at that cell's pixel position. -/
lemma tileRows_mem {α : Type} (TS : Int) (assets : List α) :
    ∀ (layout : List (List Int)) (ri : Nat) (g : List (Tile α)),
      tileRows TS assets ri layout = some g → ∀ t ∈ g,
      ∃ (i : Nat) (row : List Int) (j : Nat) (v : Int), layout[i]? = some row ∧ row[j]? = some v ∧ v ≠ -1 ∧
        t.coords = ((j : Int) * TS, ((ri + i : Nat) : Int) * TS) := by
  intro layout
  induction layout with
  | nil =>
    intro ri g hg t ht
    simp only [tileRows, Option.some.injEq] at hg
    subst hg
    simp at ht
  | cons row rest ih =>
    intro ri g hg t ht
    rw [tileRows] at hg
    cases hts : tileRow TS assets ri 0 row with
    | none => rw [hts] at hg; simp at hg
    | some ts =>
    rw [hts] at hg
    cases hrs : tileRows TS assets (ri + 1) rest with
    | none => rw [hrs] at hg; simp at hg
    | some rs =>
    rw [hrs] at hg
    simp at hg
    subst hg
    rcases List.mem_append.mp ht with ht' | ht'
    · obtain ⟨j, v, hv, hv1, hv2⟩ := tileRow_mem TS assets ri row 0 ts hts t ht'
      exact ⟨0, row, j, v, by simp, by simpa using hv, hv1, by simpa using hv2⟩
    · obtain ⟨i, row', j, v, hrow, hv, hv1, hv2⟩ := ih (ri + 1) rs hrs t ht'
      refine ⟨i + 1, row', j, v, by simpa using hrow, hv, hv1, ?_⟩
      have : ri + (i + 1) = (ri + 1) + i := by omega
      rw [this]
      exact hv2

/-- One cell adds a good-group member only for a damsel-key (hence
non-sentinel) cell, spawned at that cell's pixel position. -/
lemma entCell_good_mem (keys : CharacterKeys) (TS : Int) (ri ci : Nat) (v : Int)
    (st : SpawnAcc) (hd : keys.damsel ≠ -1) (e : NPC)
    (he : e ∈ (entCell keys TS ri ci v st).good) :
    e ∈ st.good ∨ (v ≠ -1 ∧ e.position = ((ci : Int) * TS, (ri : Int) * TS)) := by
  simp only [entCell] at he
  split_ifs at he with h1 h2 h3
  all_goals try (exact Or.inl he)
  all_goals simp_all
  all_goals rcases he with he | he
  all_goals try (exact Or.inl he)
  all_goals exact Or.inr (by simp [he])

/-- One cell adds a bad-group member only for a skeleton-key (hence
non-sentinel) cell, spawned at that cell's pixel position. -/
lemma entCell_bad_mem (keys : CharacterKeys) (TS : Int) (ri ci : Nat) (v : Int)
    (st : SpawnAcc) (hs : keys.skeleton ≠ -1) (e : NPC)
    (he : e ∈ (entCell keys TS ri ci v st).bad) :
    e ∈ st.bad ∨ (v ≠ -1 ∧ e.position = ((ci : Int) * TS, (ri : Int) * TS)) := by
  simp only [entCell] at he
  split_ifs at he with h1 h2 h3
  all_goals try (exact Or.inl he)
  all_goals simp_all
  all_goals rcases he with he | he
  all_goals try (exact Or.inl he)
  all_goals exact Or.inr (by simp [he])

/-- One cell changes the player singleton only for a player-key (hence
non-sentinel) cell, spawning the player at that cell's pixel position. -/
lemma entCell_player_mem (keys : CharacterKeys) (TS : Int) (ri ci : Nat)
    (v : Int) (st : SpawnAcc) (hp : keys.player ≠ -1) (p : PlayerE)
    (hps : (entCell keys TS ri ci v st).player = some p) :
    st.player = some p ∨ (v ≠ -1 ∧ p.position = ((ci : Int) * TS, (ri : Int) * TS)) := by
  simp only [entCell] at hps
  split_ifs at hps with h1 h2 h3
  all_goals try (exact Or.inl hps)
  all_goals simp_all
  all_goals exact Or.inr (by simp [← hps])

/-- Every good-group member the inner loop adds comes from a non-sentinel
cell of the row and spawns at that cell's pixel position. -/
lemma entsRow_good_mem (keys : CharacterKeys) (TS : Int) (ri : Nat)
    (hd : keys.damsel ≠ -1) :
    ∀ (row : List Int) (ci : Nat) (st : SpawnAcc),
      ∀ e ∈ (entsRow keys TS ri ci row st).good,
      e ∈ st.good ∨ ∃ j v, row[j]? = some v ∧ v ≠ -1 ∧
        e.position = (((ci + j : Nat) : Int) * TS, (ri : Int) * TS) := by
  intro row
  induction row with
  | nil => intro ci st e he; exact Or.inl he
  | cons v rest ih =>
    intro ci st e he
    simp only [entsRow] at he
    rcases ih (ci + 1) _ e he with hin | ⟨j, w, hw, hw1, hw2⟩
    · rcases entCell_good_mem keys TS ri ci v st hd e hin with h' | ⟨hv, hpos⟩
      · exact Or.inl h'
      · exact Or.inr ⟨0, v, by simp, hv, by simpa using hpos⟩
    · refine Or.inr ⟨j + 1, w, by simpa using hw, hw1, ?_⟩
      have hshift : ci + (j + 1) = (ci + 1) + j := by omega
      rw [hshift]
      exact hw2

/-- Every bad-group member the inner loop adds comes from a non-sentinel
cell of the row and spawns at that cell's pixel position. -/
lemma entsRow_bad_mem (keys : CharacterKeys) (TS : Int) (ri : Nat)
    (hs : keys.skeleton ≠ -1) :
    ∀ (row : List Int) (ci : Nat) (st : SpawnAcc),
      ∀ e ∈ (entsRow keys TS ri ci row st).bad,
      e ∈ st.bad ∨ ∃ j v, row[j]? = some v ∧ v ≠ -1 ∧
        e.position = (((ci + j : Nat) : Int) * TS, (ri : Int) * TS) := by
  intro row
  induction row with
  | nil => intro ci st e he; exact Or.inl he
  | cons v rest ih =>
    intro ci st e he
    simp only [entsRow] at he
    rcases ih (ci + 1) _ e he with hin | ⟨j, w, hw, hw1, hw2⟩
    · rcases entCell_bad_mem keys TS ri ci v st hs e hin with h' | ⟨hv, hpos⟩
      · exact Or.inl h'
      · exact Or.inr ⟨0, v, by simp, hv, by simpa using hpos⟩
    · refine Or.inr ⟨j + 1, w, by simpa using hw, hw1, ?_⟩
      have hshift : ci + (j + 1) = (ci + 1) + j := by omega
      rw [hshift]
      exact hw2

/-- A player the inner loop leaves spawned was already there or comes from a
non-sentinel cell of the row, at that cell's pixel position. -/
lemma entsRow_player_mem (keys : CharacterKeys) (TS : Int) (ri : Nat)
    (hp : keys.player ≠ -1) :
    ∀ (row : List Int) (ci : Nat) (st : SpawnAcc) (p : PlayerE),
      (entsRow keys TS ri ci row st).player = some p →
      st.player = some p ∨ ∃ j v, row[j]? = some v ∧ v ≠ -1 ∧
        p.position = (((ci + j : Nat) : Int) * TS, (ri : Int) * TS) := by
  intro row
  induction row with
  | nil => intro ci st p hps; exact Or.inl hps
  | cons v rest ih =>
    intro ci st p hps
    simp only [entsRow] at hps
    rcases ih (ci + 1) _ p hps with hin | ⟨j, w, hw, hw1, hw2⟩
    · rcases entCell_player_mem keys TS ri ci v st hp p hin with h' | ⟨hv, hpos⟩
      · exact Or.inl h'
      · exact Or.inr ⟨0, v, by simp, hv, by simpa using hpos⟩
    · refine Or.inr ⟨j + 1, w, by simpa using hw, hw1, ?_⟩
      have hshift : ci + (j + 1) = (ci + 1) + j := by omega
      rw [hshift]
      exact hw2

/-- Every good-group member the outer loop adds comes from a non-sentinel
cell of the layout and spawns at that cell's pixel position. -/
lemma entsRows_good_mem (keys : CharacterKeys) (TS : Int)
    (hd : keys.damsel ≠ -1) :
    ∀ (layout : List (List Int)) (ri : Nat) (st : SpawnAcc),
      ∀ e ∈ (entsRows keys TS ri layout st).good,
      e ∈ st.good ∨ ∃ (i : Nat) (row : List Int) (j : Nat) (v : Int), layout[i]? = some row ∧ row[j]? = some v ∧
        v ≠ -1 ∧ e.position = ((j : Int) * TS, ((ri + i : Nat) : Int) * TS) := by
  intro layout
  induction layout with
  | nil => intro ri st e he; exact Or.inl he
  | cons row rest ih =>
    intro ri st e he
    simp only [entsRows] at he
    rcases ih (ri + 1) _ e he with hin | ⟨i, row', j, w, hrow, hw, hw1, hw2⟩
    · rcases entsRow_good_mem keys TS ri hd row 0 st e hin
        with h' | ⟨j, w, hw, hw1, hw2⟩
      · exact Or.inl h'
      · exact Or.inr ⟨0, row, j, w, by simp, by simpa using hw, hw1, by simpa using hw2⟩
    · refine Or.inr ⟨i + 1, row', j, w, by simpa using hrow, hw, hw1, ?_⟩
      have hshift : ri + (i + 1) = (ri + 1) + i := by omega
      rw [hshift]
      exact hw2

/-- Every bad-group member the outer loop adds comes from a non-sentinel
cell of the layout and spawns at that cell's pixel position. -/
lemma entsRows_bad_mem (keys : CharacterKeys) (TS : Int)
    (hs : keys.skeleton ≠ -1) :
    ∀ (layout : List (List Int)) (ri : Nat) (st : SpawnAcc),
      ∀ e ∈ (entsRows keys TS ri layout st).bad,
      e ∈ st.bad ∨ ∃ (i : Nat) (row : List Int) (j : Nat) (v : Int), layout[i]? = some row ∧ row[j]? = some v ∧
        v ≠ -1 ∧ e.position = ((j : Int) * TS, ((ri + i : Nat) : Int) * TS) := by
  intro layout
  induction layout with
  | nil => intro ri st e he; exact Or.inl he
  | cons row rest ih =>
    intro ri st e he
    simp only [entsRows] at he
    rcases ih (ri + 1) _ e he with hin | ⟨i, row', j, w, hrow, hw, hw1, hw2⟩
    · rcases entsRow_bad_mem keys TS ri hs row 0 st e hin
        with h' | ⟨j, w, hw, hw1, hw2⟩
      · exact Or.inl h'
      · exact Or.inr ⟨0, row, j, w, by simp, by simpa using hw, hw1, by simpa using hw2⟩
    · refine Or.inr ⟨i + 1, row', j, w, by simpa using hrow, hw, hw1, ?_⟩
      have hshift : ri + (i + 1) = (ri + 1) + i := by omega
      rw [hshift]
      exact hw2

/-- A player the outer loop leaves spawned was already there or comes from a
non-sentinel cell of the layout, at that cell's pixel position. -/
lemma entsRows_player_mem (keys : CharacterKeys) (TS : Int)
    (hp : keys.player ≠ -1) :
    ∀ (layout : List (List Int)) (ri : Nat) (st : SpawnAcc) (p : PlayerE),
      (entsRows keys TS ri layout st).player = some p →
      st.player = some p ∨ ∃ (i : Nat) (row : List Int) (j : Nat) (v : Int), layout[i]? = some row ∧
        row[j]? = some v ∧ v ≠ -1 ∧
        p.position = ((j : Int) * TS, ((ri + i : Nat) : Int) * TS) := by
  intro layout
  induction layout with
  | nil => intro ri st p hps; exact Or.inl hps
  | cons row rest ih =>
    intro ri st p hps
    simp only [entsRows] at hps
    rcases ih (ri + 1) _ p hps with hin | ⟨i, row', j, w, hrow, hw, hw1, hw2⟩
    · rcases entsRow_player_mem keys TS ri hp row 0 st p hin
        with h' | ⟨j, w, hw, hw1, hw2⟩
      · exact Or.inl h'
      · exact Or.inr ⟨0, row, j, w, by simp, by simpa using hw, hw1, by simpa using hw2⟩
    · refine Or.inr ⟨i + 1, row', j, w, by simpa using hrow, hw, hw1, ?_⟩
      have hshift : ri + (i + 1) = (ri + 1) + i := by omega
      rw [hshift]
      exact hw2

/-- Two grid cells with the same pixel position are the same cell (tile size
positive). -/
lemma cell_eq_of_coords_eq (TS : Int) (hTS : 0 < TS) (r c i j : Nat)
    (heq : ((j : Int) * TS, (i : Int) * TS) = ((c : Int) * TS, (r : Int) * TS)) :
    j = c ∧ i = r := by
  have h1 : (j : Int) * TS = (c : Int) * TS := congrArg Prod.fst heq
  have h2 : (i : Int) * TS = (r : Int) * TS := congrArg Prod.snd heq
  have hTS0 : TS ≠ 0 := by omega
  constructor
  · exact Nat.cast_injective (mul_right_cancel₀ hTS0 h1)
  · exact Nat.cast_injective (mul_right_cancel₀ hTS0 h2)

/-- C4. A cell holding the sentinel `-1` is never materialized: no tile
`create_tile_group` builds and no entity `create_entities_from_layout`
spawns (player, good or bad) sits at that cell's pixel position (tile size
positive, character keys distinct from the sentinel). -/
theorem sentinel_cell_never_materialized {α : Type} (TS : Int) (assets : List α)
    (keys : CharacterKeys) (layout : List (List Int)) (r c : Nat)
    (hTS : 0 < TS) (hcell : cellAt layout r c = some (-1))
    (hp : keys.player ≠ -1) (hd : keys.damsel ≠ -1) (hs : keys.skeleton ≠ -1) :
    (∀ g, Level.create_tile_group TS assets layout = some g →
      ∀ t ∈ g, t.coords ≠ ((c : Int) * TS, (r : Int) * TS)) ∧
    (∀ st, Level.create_entities_from_layout keys TS layout = some st →
      (∀ e ∈ st.good, e.position ≠ ((c : Int) * TS, (r : Int) * TS)) ∧
      (∀ e ∈ st.bad, e.position ≠ ((c : Int) * TS, (r : Int) * TS)) ∧
      (∀ p, st.player = some p →
        p.position ≠ ((c : Int) * TS, (r : Int) * TS))) := by
  have hcontra : ∀ (i j : Nat) (row : List Int) (v : Int),
      layout[i]? = some row → row[j]? = some v → v ≠ -1 →
      ((j : Int) * TS, (i : Int) * TS) ≠ ((c : Int) * TS, (r : Int) * TS) := by
    intro i j row v hrow hv hv1 heq
    obtain ⟨hjc, hir⟩ := cell_eq_of_coords_eq TS hTS r c i j heq
    subst hjc; subst hir
    rw [cellAt, hrow] at hcell
    simp only [Option.some_bind, Option.bind_some, Option.bind_eq_bind] at hcell
    rw [hv] at hcell
    exact hv1 (by simpa using hcell)
  constructor
  · intro g hg t ht heq
    obtain ⟨i, row, j, v, hrow, hv, hv1, hv2⟩ :=
      tileRows_mem TS assets layout 0 g hg t ht
    exact hcontra i j row v hrow hv hv1 (by rw [← heq, hv2]; simp)
  · intro st hst
    have hraw : ∀ e ∈ (entsRows keys TS 0 layout spawnInit).good,
        e.position ≠ ((c : Int) * TS, (r : Int) * TS) := by
      intro e he heq
      rcases entsRows_good_mem keys TS hd layout 0 spawnInit e he
        with h' | ⟨i, row, j, v, hrow, hv, hv1, hv2⟩
      · simp [spawnInit] at h'
      · exact hcontra i j row v hrow hv hv1 (by rw [← heq, hv2]; simp)
    have hraw2 : ∀ e ∈ (entsRows keys TS 0 layout spawnInit).bad,
        e.position ≠ ((c : Int) * TS, (r : Int) * TS) := by
      intro e he heq
      rcases entsRows_bad_mem keys TS hs layout 0 spawnInit e he
        with h' | ⟨i, row, j, v, hrow, hv, hv1, hv2⟩
      · simp [spawnInit] at h'
      · exact hcontra i j row v hrow hv hv1 (by rw [← heq, hv2]; simp)
    have hraw3 : ∀ p, (entsRows keys TS 0 layout spawnInit).player = some p →
        p.position ≠ ((c : Int) * TS, (r : Int) * TS) := by
      intro p hps heq
      rcases entsRows_player_mem keys TS hp layout 0 spawnInit p hps
        with h' | ⟨i, row, j, v, hrow, hv, hv1, hv2⟩
      · simp [spawnInit] at h'
      · exact hcontra i j row v hrow hv hv1 (by rw [← heq, hv2]; simp)
    simp only [Level.create_entities_from_layout] at hst
    cases hplayer : (entsRows keys TS 0 layout spawnInit).player with
    | some p =>
      rw [hplayer] at hst
      simp only [Option.some.injEq] at hst
      subst hst
      refine ⟨?_, ?_, ?_⟩
      · intro e he
        obtain ⟨e', he', heq'⟩ := List.mem_map.mp he
        rw [← heq']
        exact hraw e' he'
      · intro e he
        obtain ⟨e', he', heq'⟩ := List.mem_map.mp he
        rw [← heq']
        exact hraw2 e' he'
      · intro q hq
        exact hraw3 q (hplayer ▸ hq)
    | none =>
      rw [hplayer] at hst
      split_ifs at hst with hemp
      · simp only [Option.some.injEq] at hst
        subst hst
        exact ⟨hraw, hraw2, fun q hq => hraw3 q (hplayer ▸ hq)⟩

/-- Closed-form check of `sentinel_cell_never_materialized` at the sentinel
cell `(0,0)` of `[[-1, 0], [3, -1]]`. -/
theorem sentinel_cell_never_materialized_witness :
    (∀ g, Level.create_tile_group 10 ([0, 1, 2, 3] : List Nat) [[-1, 0], [3, -1]]
        = some g → ∀ t ∈ g, t.coords ≠ (((0 : Nat) : Int) * 10, ((0 : Nat) : Int) * 10)) ∧
    (∀ st, Level.create_entities_from_layout
        { player := 1, damsel := 2, skeleton := 3 } 10 [[-1, 0], [3, -1]] = some st →
      (∀ e ∈ st.good, e.position ≠ (((0 : Nat) : Int) * 10, ((0 : Nat) : Int) * 10)) ∧
      (∀ e ∈ st.bad, e.position ≠ (((0 : Nat) : Int) * 10, ((0 : Nat) : Int) * 10)) ∧
      (∀ p, st.player = some p →
        p.position ≠ (((0 : Nat) : Int) * 10, ((0 : Nat) : Int) * 10))) :=
  sentinel_cell_never_materialized 10 [0, 1, 2, 3]
    { player := 1, damsel := 2, skeleton := 3 } [[-1, 0], [3, -1]] 0 0
    (by decide) (by unfold cellAt; decide) (by decide) (by decide) (by decide)

end M1W
